import Mathlib

/-!
Verification development for the explore backend service.

The service tracks directional like/pass decisions between users and serves
paginated "who liked you" queries.  This file gives a shallow embedding of:

* the pagination cursor codec (`utils/cursor.go`): JSON marshalling of the
  `Cursor` struct composed with URL-safe base64;
* the decision-store queries `GetLikers` / `GetNewLikers`
  (`internal/repository/explorer_repository.go`), with the SQL each builds
  modelled as filter / stable sort by `created_at` descending / limit over a
  list of decision rows;
* the core orchestration `ListLikers` / `ListNewLikers` / `CountLikers` /
  `CreateDecision` (`internal/core/explorer.go`), with the cache probe and the
  repository outcome passed in as explicit values and the number of storage
  calls made explicit.

Machine integers are modelled as `Int` / `Nat`; fallible Go functions return
`Except` / `Option`.
-/

/-! ## Decimal rendering and parsing of integers

Models the decimal formatting used by Go's `encoding/json` for `int64` / `int`
fields, and the digit scanning its decoder performs on a JSON number.
-/

/-- The character for a single decimal digit `d < 10` (`'0'` to `'9'`). -/
def digitChar (d : Nat) : Char := Char.ofNat (48 + d)

/-- Decimal representation of a natural number, most significant digit first,
as emitted by Go's integer formatting. -/
def natToChars (n : Nat) : List Char :=
  if n = 0 then [digitChar 0] else ((Nat.digits 10 n).map digitChar).reverse

/-- Decimal representation of an integer (with `'-'` sign for negatives), as
emitted by `json.Marshal` for an `int64` field. -/
def intToChars (i : Int) : List Char :=
  if i < 0 then '-' :: natToChars i.natAbs else natToChars i.toNat

/-- Is `c` one of `'0'`..`'9'`? -/
def isDigitChar (c : Char) : Bool := 48 ≤ c.toNat && c.toNat ≤ 57

/-- Numeric value of a decimal digit character. -/
def digitVal (c : Char) : Nat := c.toNat - 48

/-- Scan a run of decimal digits, accumulating their value onto `acc`;
returns the value together with the unconsumed remainder. -/
def parseDigits : List Char → Nat → Nat × List Char
  | [], acc => (acc, [])
  | c :: cs, acc =>
    if isDigitChar c then parseDigits cs (acc * 10 + digitVal c) else (acc, c :: cs)

/-- Parse a nonempty run of decimal digits into a natural number. -/
def parseNat : List Char → Option (Nat × List Char)
  | [] => none
  | c :: cs => if isDigitChar c then some (parseDigits cs (digitVal c)) else none

/-- Parse an optionally `'-'`-signed decimal integer, as Go's JSON decoder
reads a number into an integer field. -/
def parseInt (s : List Char) : Option (Int × List Char) :=
  match s with
  | [] => none
  | c :: cs =>
    if c = '-' then (parseNat cs).map (fun p => (-(p.1 : Int), p.2))
    else (parseNat s).map (fun p => ((p.1 : Int), p.2))

/-! ## URL-safe base64 (Go `encoding/base64.URLEncoding`)

Alphabet `A-Z a-z 0-9 - _` with `'='` padding.  Encoding takes bytes three at
a time; decoding takes characters four at a time, accepts padding only at the
end of the input, and (like Go's non-strict decoder) ignores the unused
trailing bits of a final partial group.
-/

/-- The URL-safe base64 alphabet used by `base64.URLEncoding`. -/
def b64Alphabet : List Char :=
  "ABCDEFGHIJKLMNOPQRSTUVWXYZabcdefghijklmnopqrstuvwxyz0123456789-_".toList

/-- Character for a 6-bit value. -/
def b64Char (v : Nat) : Char := b64Alphabet.getD v '='

/-- 6-bit value of an alphabet character, `none` for a character outside the
alphabet (in particular for `'='`). -/
def b64Val (c : Char) : Option Nat :=
  let i := b64Alphabet.indexOf c
  if i < 64 then some i else none

/-- base64url-encode a byte list (bytes are `Nat`s below 256), with padding. -/
def b64EncodeBytes : List Nat → List Char
  | [] => []
  | [b1] => [b64Char (b1 / 4), b64Char (b1 % 4 * 16), '=', '=']
  | [b1, b2] => [b64Char (b1 / 4), b64Char (b1 % 4 * 16 + b2 / 16), b64Char (b2 % 16 * 4), '=']
  | b1 :: b2 :: b3 :: rest =>
    b64Char (b1 / 4) :: b64Char (b1 % 4 * 16 + b2 / 16) :: b64Char (b2 % 16 * 4 + b3 / 64) ::
      b64Char (b3 % 64) :: b64EncodeBytes rest

/-- base64url-decode a character list into bytes; `none` models the decode
error Go's `DecodeString` returns on malformed input (bad length, characters
outside the alphabet, or padding not at the end). -/
def b64DecodeChars : List Char → Option (List Nat)
  | [] => some []
  | c1 :: c2 :: c3 :: c4 :: rest =>
    match b64Val c1, b64Val c2 with
    | some v1, some v2 =>
      if c3 = '=' then
        if c4 = '=' && rest.isEmpty then some [v1 * 4 + v2 / 16] else none
      else
        match b64Val c3 with
        | some v3 =>
          if c4 = '=' then
            if rest.isEmpty then some [v1 * 4 + v2 / 16, v2 % 16 * 16 + v3 / 4] else none
          else
            match b64Val c4 with
            | some v4 =>
              match b64DecodeChars rest with
              | some bs =>
                some ((v1 * 4 + v2 / 16) :: (v2 % 16 * 16 + v3 / 4) :: (v3 % 4 * 64 + v4) :: bs)
              | none => none
            | none => none
        | none => none
    | _, _ => none
  | _ => none

/-! ## The pagination cursor and its codec (`utils/cursor.go`) -/

/-- `utils.Cursor`: `LastCreatedAt int64` and `Limit int`. -/
structure Cursor where
  LastCreatedAt : Int
  Limit : Int
deriving Repr, DecidableEq

/-- Opening brace character. -/
def lbrace : Char := Char.ofNat 123

/-- Closing brace character. -/
def rbrace : Char := Char.ofNat 125

/-- Double-quote character. -/
def quoteChar : Char := Char.ofNat 34

/-- The literal segment before the `LastCreatedAt` value in the canonical
JSON document for a `Cursor`. -/
def jsonSegA : List Char := [lbrace, quoteChar] ++ "LastCreatedAt".toList ++ [quoteChar, ':']

/-- The literal segment between the two field values. -/
def jsonSegB : List Char := [',', quoteChar] ++ "Limit".toList ++ [quoteChar, ':']

/-- The JSON document `json.Marshal` produces for a `Cursor` value: field
names are the exported Go field names, in declaration order, no whitespace. -/
def jsonMarshalCursor (c : Cursor) : List Char :=
  jsonSegA ++ intToChars c.LastCreatedAt ++ jsonSegB ++ intToChars c.Limit ++ [rbrace]

/-- Consume an expected literal character sequence; `none` on mismatch. -/
def expectLit : List Char → List Char → Option (List Char)
  | [], s => some s
  | e :: es, c :: cs => if c = e then expectLit es cs else none
  | _ :: _, [] => none

/-- Model of `json.Unmarshal` into a `Cursor`, restricted to the canonical
documents `json.Marshal` emits for that struct (field order and spelling as in
`jsonMarshalCursor`); any other input is rejected, modelling a structural
decode failure. -/
def jsonUnmarshalCursor (s : List Char) : Option Cursor :=
  match expectLit jsonSegA s with
  | none => none
  | some r1 =>
    match parseInt r1 with
    | none => none
    | some (lastCreatedAt, r2) =>
      match expectLit jsonSegB r2 with
      | none => none
      | some r3 =>
        match parseInt r3 with
        | none => none
        | some (lim, r4) =>
          match expectLit [rbrace] r4 with
          | none => none
          | some r5 => if r5 = [] then some ⟨lastCreatedAt, lim⟩ else none

/-- Bytes of an ASCII character list (JSON documents here are pure ASCII). -/
def charsToBytes (cs : List Char) : List Nat := cs.map Char.toNat

/-- Characters of an ASCII byte list. -/
def bytesToChars (bs : List Nat) : List Char := bs.map Char.ofNat

/-- `Cursor.Encode`: `base64.URLEncoding.EncodeToString(json.Marshal(c))`.
`json.Marshal` never fails on this struct, so the Go error return is elided. -/
def Cursor.Encode (c : Cursor) : String :=
  String.mk (b64EncodeBytes (charsToBytes (jsonMarshalCursor c)))

/-- `utils.DecodeCursor`: empty token means no cursor (`.ok none`); otherwise
base64-decode then JSON-decode, surfacing either failure as an error. -/
def DecodeCursor (encodedCursor : String) : Except String (Option Cursor) :=
  if encodedCursor = "" then .ok none
  else
    match b64DecodeChars encodedCursor.toList with
    | none => .error "illegal base64 data"
    | some bytes =>
      match jsonUnmarshalCursor (bytesToChars bytes) with
      | none => .error "invalid cursor json"
      | some c => .ok (some c)

/-! ## Codec helper lemmas -/

theorem b64Val_b64Char : ∀ v < 64, b64Val (b64Char v) = some v := by decide

theorem b64Char_ne_pad : ∀ v < 64, ¬(b64Char v = '=') := by decide

/-- Decoding inverts encoding on byte lists (all bytes below 256). -/
theorem b64_roundtrip :
    ∀ bs : List Nat, (∀ b ∈ bs, b < 256) → b64DecodeChars (b64EncodeBytes bs) = some bs := by
  intro bs
  induction bs using b64EncodeBytes.induct with
  | case1 => intro _; rfl
  | case2 b1 =>
    intro h
    have hb1 : b1 < 256 := h b1 (by simp)
    show b64DecodeChars [b64Char (b1 / 4), b64Char (b1 % 4 * 16), '=', '='] = some [b1]
    simp only [b64DecodeChars, b64Val_b64Char (b1 / 4) (by omega),
      b64Val_b64Char (b1 % 4 * 16) (by omega)]
    norm_num
    omega
  | case3 b1 b2 =>
    intro h
    have hb1 : b1 < 256 := h b1 (by simp)
    have hb2 : b2 < 256 := h b2 (by simp)
    show b64DecodeChars [b64Char (b1 / 4), b64Char (b1 % 4 * 16 + b2 / 16),
      b64Char (b2 % 16 * 4), '='] = some [b1, b2]
    simp only [b64DecodeChars, b64Val_b64Char (b1 / 4) (by omega),
      b64Val_b64Char (b1 % 4 * 16 + b2 / 16) (by omega),
      b64Val_b64Char (b2 % 16 * 4) (by omega),
      if_neg (b64Char_ne_pad (b2 % 16 * 4) (by omega))]
    norm_num
    constructor <;> omega
  | case4 b1 b2 b3 rest ih =>
    intro h
    have hb1 : b1 < 256 := h b1 (by simp)
    have hb2 : b2 < 256 := h b2 (by simp)
    have hb3 : b3 < 256 := h b3 (by simp)
    have hrest : ∀ b ∈ rest, b < 256 := fun b hb => h b (by simp [hb])
    show b64DecodeChars (b64Char (b1 / 4) :: b64Char (b1 % 4 * 16 + b2 / 16) ::
      b64Char (b2 % 16 * 4 + b3 / 64) :: b64Char (b3 % 64) :: b64EncodeBytes rest) = _
    simp only [b64DecodeChars, b64Val_b64Char (b1 / 4) (by omega),
      b64Val_b64Char (b1 % 4 * 16 + b2 / 16) (by omega),
      b64Val_b64Char (b2 % 16 * 4 + b3 / 64) (by omega),
      b64Val_b64Char (b3 % 64) (by omega),
      if_neg (b64Char_ne_pad (b2 % 16 * 4 + b3 / 64) (by omega)),
      if_neg (b64Char_ne_pad (b3 % 64) (by omega)), ih hrest]
    norm_num
    refine ⟨by omega, by omega, by omega⟩

theorem isDigitChar_digitChar : ∀ d < 10, isDigitChar (digitChar d) = true := by decide

theorem digitVal_digitChar : ∀ d < 10, digitVal (digitChar d) = d := by decide

theorem digitChar_ne_minus : ∀ d < 10, ¬(digitChar d = '-') := by decide

theorem digitChar_toNat_lt : ∀ d < 10, (digitChar d).toNat < 256 := by decide

/-- The remainder a digit scan stops at: empty, or headed by a non-digit. -/
def headNotDigit : List Char → Prop
  | [] => True
  | c :: _ => isDigitChar c = false

theorem parseDigits_append (ds : List Nat) (acc : Nat) (rest : List Char)
    (hd : ∀ d ∈ ds, d < 10) (hrest : headNotDigit rest) :
    parseDigits (ds.map digitChar ++ rest) acc =
      (ds.foldl (fun a d => a * 10 + d) acc, rest) := by
  induction ds generalizing acc with
  | nil =>
    cases rest with
    | nil => rfl
    | cons c cs =>
      simp only [headNotDigit] at hrest
      simp [parseDigits, hrest]
  | cons d t ih =>
    have hd10 : d < 10 := hd d (by simp)
    simp only [List.map_cons, List.cons_append, parseDigits,
      isDigitChar_digitChar d hd10, digitVal_digitChar d hd10, if_true, List.foldl_cons]
    exact ih _ (fun x hx => hd x (by simp [hx]))

theorem foldl_reverse_ofDigits (l : List Nat) (acc : Nat) :
    l.reverse.foldl (fun a d => a * 10 + d) acc = acc * 10 ^ l.length + Nat.ofDigits 10 l := by
  induction l generalizing acc with
  | nil => simp
  | cons d t ih =>
    simp only [List.reverse_cons, List.foldl_append, ih, List.foldl_cons, List.foldl_nil,
      Nat.ofDigits_cons, List.length_cons, pow_succ]
    ring

theorem parseNat_append_natToChars (n : Nat) (rest : List Char) (hrest : headNotDigit rest) :
    parseNat (natToChars n ++ rest) = some (n, rest) := by
  by_cases h0 : n = 0
  · subst h0
    show parseNat (digitChar 0 :: rest) = some (0, rest)
    simp only [parseNat, isDigitChar_digitChar 0 (by omega), if_true,
      digitVal_digitChar 0 (by omega)]
    cases rest with
    | nil => rfl
    | cons c cs =>
      simp only [headNotDigit] at hrest
      simp [parseDigits, hrest]
  · have hmap : natToChars n = ((Nat.digits 10 n).reverse).map digitChar := by
      simp [natToChars, h0, List.map_reverse]
    have hne : (Nat.digits 10 n).reverse ≠ [] := by
      simp [Nat.digits_ne_nil_iff_ne_zero, h0]
    obtain ⟨d, t, hdt⟩ := List.exists_cons_of_ne_nil hne
    have hmem : ∀ x ∈ (Nat.digits 10 n).reverse, x < 10 := by
      intro x hx
      exact Nat.digits_lt_base (by norm_num) (List.mem_reverse.mp hx)
    have hd10 : d < 10 := hmem d (by rw [hdt]; simp)
    rw [hmap, hdt]
    simp only [List.map_cons, List.cons_append, parseNat,
      isDigitChar_digitChar d hd10, if_true, digitVal_digitChar d hd10]
    rw [parseDigits_append t d rest (fun x hx => hmem x (by rw [hdt]; simp [hx])) hrest]
    have hfold : t.foldl (fun a x => a * 10 + x) d = n := by
      have h1 : (Nat.digits 10 n).reverse.foldl (fun a x => a * 10 + x) 0 = n := by
        rw [foldl_reverse_ofDigits, Nat.ofDigits_digits]
        simp
      rw [hdt] at h1
      simpa using h1
    rw [hfold]

theorem natToChars_head (n : Nat) : ∃ d t, natToChars n = digitChar d :: t ∧ d < 10 := by
  by_cases h0 : n = 0
  · exact ⟨0, [], by simp [natToChars, h0], by omega⟩
  · have hmap : natToChars n = ((Nat.digits 10 n).reverse).map digitChar := by
      simp [natToChars, h0, List.map_reverse]
    have hne : (Nat.digits 10 n).reverse ≠ [] := by
      simp [Nat.digits_ne_nil_iff_ne_zero, h0]
    obtain ⟨d, t, hdt⟩ := List.exists_cons_of_ne_nil hne
    refine ⟨d, t.map digitChar, by rw [hmap, hdt]; simp, ?_⟩
    exact Nat.digits_lt_base (by norm_num) (List.mem_reverse.mp (by rw [hdt]; simp))

theorem parseInt_append_intToChars (i : Int) (rest : List Char) (hrest : headNotDigit rest) :
    parseInt (intToChars i ++ rest) = some (i, rest) := by
  by_cases hneg : i < 0
  · have hshape : intToChars i = '-' :: natToChars i.natAbs := by simp [intToChars, hneg]
    rw [hshape]
    have hstep : parseInt ('-' :: (natToChars i.natAbs ++ rest)) =
        (parseNat (natToChars i.natAbs ++ rest)).map (fun p => (-(↑p.1 : Int), p.2)) := by
      simp [parseInt]
    rw [List.cons_append, hstep, parseNat_append_natToChars i.natAbs rest hrest]
    show some ((-(↑i.natAbs) : Int), rest) = some (i, rest)
    rw [show (-(↑i.natAbs) : Int) = i from by omega]
  · have hi : intToChars i = natToChars i.toNat := by simp [intToChars, hneg]
    obtain ⟨d, t, hdt, hd10⟩ := natToChars_head i.toNat
    have hne : ¬(digitChar d = '-') := digitChar_ne_minus d hd10
    have hstep : parseInt (natToChars i.toNat ++ rest) =
        (parseNat (natToChars i.toNat ++ rest)).map (fun p => ((↑p.1 : Int), p.2)) := by
      rw [hdt]
      simp [parseInt, hne]
    rw [hi, hstep, parseNat_append_natToChars i.toNat rest hrest]
    show some (((i.toNat : Int)), rest) = some (i, rest)
    rw [show ((i.toNat : Int)) = i from by omega]

theorem expectLit_append (p s : List Char) : expectLit p (p ++ s) = some s := by
  induction p with
  | nil => rfl
  | cons c cs ih => simp [expectLit, ih]

/-- JSON decoding inverts JSON encoding for every cursor value. -/
theorem jsonUnmarshal_marshal (c : Cursor) :
    jsonUnmarshalCursor (jsonMarshalCursor c) = some c := by
  have hshape : jsonMarshalCursor c =
      jsonSegA ++ (intToChars c.LastCreatedAt ++
        (jsonSegB ++ (intToChars c.Limit ++ [rbrace]))) := by
    simp [jsonMarshalCursor]
  have hnd1 : headNotDigit (jsonSegB ++ (intToChars c.Limit ++ [rbrace])) := by
    simp only [jsonSegB, List.cons_append, List.append_assoc, headNotDigit]
    decide
  have hnd2 : headNotDigit [rbrace] := by
    simp only [headNotDigit]
    decide
  have h1 := parseInt_append_intToChars c.LastCreatedAt
    (jsonSegB ++ (intToChars c.Limit ++ [rbrace])) hnd1
  have h2 := parseInt_append_intToChars c.Limit [rbrace] hnd2
  have h3 : expectLit [rbrace] [rbrace] = some [] := by decide
  unfold jsonUnmarshalCursor
  rw [hshape, expectLit_append]
  simp only [h1, expectLit_append, h2, h3, if_true]

theorem natToChars_toNat_lt (n : Nat) : ∀ ch ∈ natToChars n, ch.toNat < 256 := by
  intro ch hch
  by_cases h0 : n = 0
  · simp [natToChars, h0] at hch
    subst hch
    decide
  · simp only [natToChars, h0, if_false, List.mem_reverse, List.mem_map] at hch
    obtain ⟨d, hd, rfl⟩ := hch
    exact digitChar_toNat_lt d (Nat.digits_lt_base (by norm_num) hd)

theorem intToChars_toNat_lt (i : Int) : ∀ ch ∈ intToChars i, ch.toNat < 256 := by
  intro ch hch
  by_cases hneg : i < 0
  · simp only [intToChars, hneg, if_true, List.mem_cons] at hch
    rcases hch with rfl | hch
    · decide
    · exact natToChars_toNat_lt _ ch hch
  · simp only [intToChars, hneg, if_false] at hch
    exact natToChars_toNat_lt _ ch hch

theorem marshal_bytes_lt (c : Cursor) :
    ∀ b ∈ charsToBytes (jsonMarshalCursor c), b < 256 := by
  intro b hb
  simp only [charsToBytes, List.mem_map] at hb
  obtain ⟨ch, hch, rfl⟩ := hb
  simp only [jsonMarshalCursor, List.append_assoc, List.mem_append] at hch
  rcases hch with h | h | h | h | h
  · have : ∀ x ∈ jsonSegA, x.toNat < 256 := by decide
    exact this ch h
  · exact intToChars_toNat_lt _ ch h
  · have : ∀ x ∈ jsonSegB, x.toNat < 256 := by decide
    exact this ch h
  · exact intToChars_toNat_lt _ ch h
  · simp only [List.mem_singleton] at h
    subst h
    decide

theorem bytesToChars_charsToBytes (cs : List Char) :
    bytesToChars (charsToBytes cs) = cs := by
  simp only [bytesToChars, charsToBytes, List.map_map]
  have : Char.ofNat ∘ Char.toNat = id := by
    funext ch
    simp [Function.comp, Char.ofNat_toNat]
  rw [this, List.map_id]

theorem encode_ne_empty (c : Cursor) : Cursor.Encode c ≠ "" := by
  have hbytes : ∃ b t, charsToBytes (jsonMarshalCursor c) = b :: t := by
    refine ⟨lbrace.toNat, ?_, ?_⟩
    · exact charsToBytes ((jsonMarshalCursor c).tail)
    · simp [charsToBytes, jsonMarshalCursor, jsonSegA, List.tail]
  obtain ⟨b, t, hbt⟩ := hbytes
  have henc : ∃ x xs, b64EncodeBytes (b :: t) = x :: xs := by
    cases t with
    | nil => exact ⟨_, _, rfl⟩
    | cons b2 t2 =>
      cases t2 with
      | nil => exact ⟨_, _, rfl⟩
      | cons b3 t3 => exact ⟨_, _, rfl⟩
  obtain ⟨x, xs, hxxs⟩ := henc
  unfold Cursor.Encode
  rw [hbt, hxxs]
  intro hcontra
  have hnil : (x :: xs : List Char) = [] := by
    have hl := congrArg String.toList hcontra
    simp at hl
  simp at hnil

/-- Full codec round-trip: decoding an encoded cursor token recovers the
cursor, with no error. -/
theorem decodeCursor_encode (c : Cursor) : DecodeCursor c.Encode = .ok (some c) := by
  unfold DecodeCursor
  rw [if_neg (encode_ne_empty c)]
  have h1 : (Cursor.Encode c).toList = b64EncodeBytes (charsToBytes (jsonMarshalCursor c)) :=
    rfl
  rw [h1, b64_roundtrip _ (marshal_bytes_lt c)]
  simp only [bytesToChars_charsToBytes, jsonUnmarshal_marshal]

/-! ## Decision rows and the store queries
(`internal/repository/explorer_repository.go`)

A decision row carries `(actor_user_id, recipient_user_id, liked_recipient,
created_at)`; the surrogate `id` column is not selected by any query modelled
here (in the `LEFT JOIN ... WHERE d2.id IS NULL` anti-join it acts only as a
match indicator, modelled below by an existence test).  `created_at` is the
`EXTRACT(EPOCH FROM created_at)::bigint` value the queries select and compare.
The SQL built by each function is modelled as: row filter, stable sort by
`created_at` descending (`ORDER BY created_at DESC`), prefix of the `LIMIT`
argument, projection to `models.Liker`.
-/

/-- One row of the `decisions` relation. -/
structure Decision where
  actorUserId : String
  recipientUserId : String
  likedRecipient : Bool
  createdAt : Int
deriving Repr, DecidableEq

/-- `models.Liker`: the `(actor_user_id, timestamp)` projection a query row
scans into. -/
structure Liker where
  ActorID : String
  Timestamp : Int
deriving Repr, DecidableEq

/-- The `ORDER BY created_at DESC` comparison on rows. -/
def createdAtDesc (a b : Decision) : Prop := b.createdAt ≤ a.createdAt

instance : DecidableRel createdAtDesc := fun a b => Int.decLe b.createdAt a.createdAt

instance : IsTotal Decision createdAtDesc := ⟨fun a b => le_total b.createdAt a.createdAt⟩

instance : IsTrans Decision createdAtDesc := ⟨fun _ _ _ h1 h2 => le_trans h2 h1⟩

/-- The `WHERE` clause of the `GetLikers` query: recipient matches,
`liked_recipient = true`, and — when a pagination token was supplied — the
row is strictly older than the cursor's `last_created_at`. -/
def likedRowFilter (recipient : String) (applyWindow : Bool) (lastCreatedAt : Int)
    (d : Decision) : Bool :=
  d.recipientUserId == recipient && d.likedRecipient &&
    (!applyWindow || d.createdAt < lastCreatedAt)

/-- The `WHERE` clause of the `GetNewLikers` query.  The anti-join
`LEFT JOIN decisions d2 ON d1.actor_user_id = d2.recipient_user_id ...
WHERE d2.id IS NULL` keeps a row exactly when no row of the whole relation
has the candidate actor as its recipient (note: from any actor, not only
from the queried recipient). -/
def newLikerRowFilter (db : List Decision) (recipient : String) (applyWindow : Bool)
    (lastCreatedAt : Int) (d : Decision) : Bool :=
  d.recipientUserId == recipient && d.likedRecipient &&
    db.all (fun d2 => !(d2.recipientUserId == d.actorUserId)) &&
    (!applyWindow || d.createdAt < lastCreatedAt)

/-- Projection of a decision row to the scanned `Liker` columns. -/
def projLiker (d : Decision) : Liker := ⟨d.actorUserId, d.createdAt⟩

/-- `SELECT actor_user_id, timestamp FROM decisions WHERE f ORDER BY
created_at DESC LIMIT fetch`. -/
def queryRows (db : List Decision) (f : Decision → Bool) (fetch : Nat) : List Liker :=
  (((db.filter f).insertionSort createdAtDesc).take fetch).map projLiker

/-- The cursor-decoding prelude shared by `GetLikers` and `GetNewLikers`:
a decode failure aborts; a `nil` cursor or one with `Limit <= 0` is replaced
by the default cursor `{Limit: 20}` (whose `LastCreatedAt` is the zero
value `0`). -/
def effectiveCursorE (paginationToken : String) : Except String Cursor :=
  match DecodeCursor paginationToken with
  | .error e => .error ("invalid paginationToken: " ++ e)
  | .ok none => .ok ⟨0, 20⟩
  | .ok (some c) => .ok (if c.Limit ≤ 0 then ⟨0, 20⟩ else c)

/-- The row list the `GetLikers` query returns: `LIMIT cursor.Limit + 1`
(over-fetch by one to detect a further page). -/
def likersFetch (db : List Decision) (recipientUserId paginationToken : String)
    (cursor : Cursor) : List Liker :=
  queryRows db
    (likedRowFilter recipientUserId (paginationToken != "") cursor.LastCreatedAt)
    (cursor.Limit + 1).toNat

/-- The row list the `GetNewLikers` query returns: `LIMIT cursor.Limit`
exactly (no over-fetch). -/
def newLikersFetch (db : List Decision) (recipientUserId paginationToken : String)
    (cursor : Cursor) : List Liker :=
  queryRows db
    (newLikerRowFilter db recipientUserId (paginationToken != "") cursor.LastCreatedAt)
    cursor.Limit.toNat

/-- `explorerStore.GetLikers`: fetches `cursor.Limit + 1` rows; when more than
`cursor.Limit` rows come back, the page is truncated to `cursor.Limit` rows
and a continuation cursor carrying `likers[cursor.Limit-1].Timestamp` is
encoded as the next pagination token. -/
def GetLikers (db : List Decision) (recipientUserId paginationToken : String) :
    Except String (List Liker × String) :=
  match effectiveCursorE paginationToken with
  | .error e => .error e
  | .ok cursor =>
    let likers := likersFetch db recipientUserId paginationToken cursor
    if cursor.Limit < (likers.length : Int) then
      .ok (likers.take cursor.Limit.toNat,
        Cursor.Encode ⟨(likers.getD (cursor.Limit - 1).toNat ⟨"", 0⟩).Timestamp, cursor.Limit⟩)
    else
      .ok (likers, "")

/-- `explorerStore.GetNewLikers`: same shape as `GetLikers` but with the
anti-join filter and a fetch limit of exactly `cursor.Limit` (no over-fetch). -/
def GetNewLikers (db : List Decision) (recipientUserId paginationToken : String) :
    Except String (List Liker × String) :=
  match effectiveCursorE paginationToken with
  | .error e => .error e
  | .ok cursor =>
    let likers := newLikersFetch db recipientUserId paginationToken cursor
    if cursor.Limit < (likers.length : Int) then
      .ok (likers.take cursor.Limit.toNat,
        Cursor.Encode ⟨(likers.getD (cursor.Limit - 1).toNat ⟨"", 0⟩).Timestamp, cursor.Limit⟩)
    else
      .ok (likers, "")

/-! ## Store query helper lemmas -/

/-- `created_at` descending order on the projected rows. -/
def likerDesc (a b : Liker) : Prop := b.Timestamp ≤ a.Timestamp

theorem effectiveCursor_pos (token : String) (c : Cursor)
    (hc : effectiveCursorE token = .ok c) : 0 < c.Limit := by
  unfold effectiveCursorE at hc
  cases hdec : DecodeCursor token with
  | error e => rw [hdec] at hc; exact absurd hc (by simp)
  | ok oc =>
    rw [hdec] at hc
    cases oc with
    | none =>
      simp only [Except.ok.injEq] at hc
      rw [← hc]
      decide
    | some c0 =>
      simp only [Except.ok.injEq] at hc
      by_cases hlim : c0.Limit ≤ 0
      · rw [if_pos hlim] at hc
        rw [← hc]
        decide
      · rw [if_neg hlim] at hc
        rw [← hc]
        omega

theorem effectiveCursor_empty : effectiveCursorE "" = .ok ⟨0, 20⟩ := rfl

theorem effectiveCursor_encode (c : Cursor) (h : ¬(c.Limit ≤ 0)) :
    effectiveCursorE c.Encode = .ok c := by
  unfold effectiveCursorE
  rw [decodeCursor_encode]
  simp [h]

theorem effectiveCursor_encode_degenerate (c : Cursor) (h : c.Limit ≤ 0) :
    effectiveCursorE c.Encode = .ok ⟨0, 20⟩ := by
  unfold effectiveCursorE
  rw [decodeCursor_encode]
  simp [h]

theorem encode_bne_empty (c : Cursor) : (Cursor.Encode c != "") = true := by
  simp [bne, encode_ne_empty c]

theorem queryRows_length (db : List Decision) (f : Decision → Bool) (fetch : Nat) :
    (queryRows db f fetch).length = min fetch (db.filter f).length := by
  unfold queryRows
  rw [List.length_map, List.length_take,
    (List.perm_insertionSort createdAtDesc (db.filter f)).length_eq]

theorem queryRows_sorted (db : List Decision) (f : Decision → Bool) (fetch : Nat) :
    List.Sorted likerDesc (queryRows db f fetch) := by
  unfold queryRows
  refine List.Pairwise.map projLiker (fun a b hab => hab) ?_
  exact List.Pairwise.sublist (List.take_sublist _ _)
    (List.sorted_insertionSort createdAtDesc (db.filter f))

theorem queryRows_mem (db : List Decision) (f : Decision → Bool) (fetch : Nat) :
    ∀ x ∈ queryRows db f fetch, x ∈ (db.filter f).map projLiker := by
  intro x hx
  unfold queryRows at hx
  simp only [List.mem_map] at hx ⊢
  obtain ⟨d, hd, rfl⟩ := hx
  refine ⟨d, ?_, rfl⟩
  have h1 : d ∈ (db.filter f).insertionSort createdAtDesc :=
    (List.take_sublist _ _).subset hd
  exact ((List.perm_insertionSort createdAtDesc (db.filter f)).mem_iff).mp h1

theorem queryRows_perm_of_le (db : List Decision) (f : Decision → Bool) (fetch : Nat)
    (h : (db.filter f).length ≤ fetch) :
    (queryRows db f fetch).Perm ((db.filter f).map projLiker) := by
  unfold queryRows
  rw [List.take_of_length_le]
  · exact (List.perm_insertionSort createdAtDesc (db.filter f)).map projLiker
  · rw [(List.perm_insertionSort createdAtDesc (db.filter f)).length_eq]
    exact h

theorem getLast?_take_of_length (l : List Liker) (n : Nat) (h0 : 0 < n)
    (hlen : n ≤ l.length) :
    (l.take n).getLast? = some (l.getD (n - 1) ⟨"", 0⟩) := by
  rw [List.getLast?_eq_getElem?, List.length_take]
  have hmin : min n l.length = n := by omega
  rw [hmin, List.getElem?_take]
  rw [if_pos (by omega), List.getD_eq_getElem?_getD, List.getElem?_eq_getElem (by omega)]
  simp

/-! ## Core orchestration (`internal/core/explorer.go`)

The core composes a cache provider and the repository.  Effects are made
explicit: the outcome of the cache probe and the outcome of the repository
call are inputs, and each orchestration returns its result together with the
number of storage (repository) calls it performed.  The fire-and-forget cache
repopulation goroutine returns nothing to the caller and is not modelled.
-/

/-- `pb.ListLikedYouResponse_Liker`: `actor_id` and `unix_timestamp uint64`
(the Go code converts the `int64` timestamp with `uint64(liker.Timestamp)`,
modelled as reduction modulo `2 ^ 64`). -/
structure PbLiker where
  actorId : String
  unixTimestamp : Nat
deriving Repr, DecidableEq

/-- Conversion performed in the response-building loops of `ListLikers` /
`ListNewLikers`. -/
def toPbLiker (l : Liker) : PbLiker := ⟨l.ActorID, (l.Timestamp % (2 ^ 64 : Int)).toNat⟩

/-- `pb.ListLikedYouResponse`: likers plus optional next pagination token. -/
structure ListLikedYouResponse where
  likers : List PbLiker
  nextPaginationToken : Option String
deriving Repr, DecidableEq

/-- Outcome of `cache.GetJSON(ctx, key, &cached)`: the returned `ok` flag and
error, and the value left in `cached` (meaningful when `ok` with no error). -/
structure CacheProbe where
  ok : Bool
  err : Option String
  payload : ListLikedYouResponse
deriving Repr, DecidableEq

/-- Errors the core surfaces (`status.Error(codes.Internal, msg)`). -/
inductive CoreError where
  | internal (msg : String)
deriving Repr, DecidableEq

deriving instance DecidableEq for Except

/-- Result of a core list read together with the number of repository calls. -/
structure CoreReadOutcome where
  result : Except CoreError ListLikedYouResponse
  storageCalls : Nat
deriving Repr, DecidableEq

/-- Response construction shared by the two list reads: convert rows, and
attach the next token only when it is nonempty. -/
def buildListResponse (likers : List Liker) (nextToken : String) : ListLikedYouResponse :=
  ⟨likers.map toPbLiker, if nextToken != "" then some nextToken else none⟩

/-- `exploreCore.ListLikers`: return the cached payload when the probe
returned `ok` with a `nil` error; otherwise make exactly one repository call,
failing the request only on a repository error. -/
def listLikersCore (probe : CacheProbe) (repo : Except String (List Liker × String)) :
    CoreReadOutcome :=
  if probe.err = none ∧ probe.ok then ⟨.ok probe.payload, 0⟩
  else
    match repo with
    | .error _ => ⟨.error (.internal "failed to get likers"), 1⟩
    | .ok (likers, nextToken) => ⟨.ok (buildListResponse likers nextToken), 1⟩

/-- `exploreCore.ListNewLikers`: identical orchestration with its own error
message and cache key / TTL. -/
def listNewLikersCore (probe : CacheProbe) (repo : Except String (List Liker × String)) :
    CoreReadOutcome :=
  if probe.err = none ∧ probe.ok then ⟨.ok probe.payload, 0⟩
  else
    match repo with
    | .error _ => ⟨.error (.internal "failed to get new likers"), 1⟩
    | .ok (likers, nextToken) => ⟨.ok (buildListResponse likers nextToken), 1⟩

/-- Model of `strconv.ParseUint(raw, 10, 64)`: nonempty all-digit decimal
string whose value fits in 64 bits. -/
def parseUintDec (s : String) : Option Nat :=
  let cs := s.toList
  if cs.isEmpty then none
  else if cs.all isDigitChar then
    let n := cs.foldl (fun a c => a * 10 + digitVal c) 0
    if n < 2 ^ 64 then some n else none
  else none

/-- Result of the core count read together with the number of repository
calls. -/
structure CoreCountOutcome where
  result : Except CoreError Nat
  storageCalls : Nat
deriving Repr, DecidableEq

/-- `exploreCore.CountLikers`: the cached raw string is used when the cache
`Get` returned no error, a nonempty string, and the string parses as a
`uint64`; any other combination falls through to exactly one repository
call (`CountLikes`), whose `int64` result is returned as `uint64(count)`. -/
def countLikersCore (cacheRaw : String) (cacheErr : Option String)
    (repo : Except String Int) : CoreCountOutcome :=
  if cacheErr = none ∧ cacheRaw ≠ "" then
    match parseUintDec cacheRaw with
    | some n => ⟨.ok n, 0⟩
    | none =>
      match repo with
      | .error _ => ⟨.error (.internal "failed to count likers"), 1⟩
      | .ok count => ⟨.ok ((count % (2 ^ 64 : Int)).toNat), 1⟩
  else
    match repo with
    | .error _ => ⟨.error (.internal "failed to count likers"), 1⟩
    | .ok count => ⟨.ok ((count % (2 ^ 64 : Int)).toNat), 1⟩

/-- `pb.PutDecisionResponse`. -/
structure PutDecisionResponse where
  mutualLikes : Bool
deriving Repr, DecidableEq

/-- Result of `CreateDecision` together with whether `HasMutualLike` was
queried. -/
structure CreateDecisionOutcome where
  result : Except CoreError PutDecisionResponse
  mutualChecked : Bool
deriving Repr, DecidableEq

/-- `exploreCore.CreateDecision`: upsert first (failure is fatal and skips the
mutual-like check); query `HasMutualLike` only for a liking decision; a `nil`
(`none`) mutual-like result counts as `false`. -/
def createDecisionCore (likedRecipient : Bool) (upsertErr : Option String)
    (mutualRes : Except String (Option Bool)) : CreateDecisionOutcome :=
  match upsertErr with
  | some _ => ⟨.error (.internal "failed to create decision"), false⟩
  | none =>
    if likedRecipient then
      match mutualRes with
      | .error _ => ⟨.error (.internal "failed to check mutual like"), true⟩
      | .ok r => ⟨.ok ⟨match r with | some b => b | none => false⟩, true⟩
    else ⟨.ok ⟨false⟩, false⟩

theorem getLikers_eq (db : List Decision) (recipient token : String) (c : Cursor)
    (hc : effectiveCursorE token = .ok c) :
    GetLikers db recipient token =
      if c.Limit < ((likersFetch db recipient token c).length : Int) then
        .ok ((likersFetch db recipient token c).take c.Limit.toNat,
          Cursor.Encode
            ⟨((likersFetch db recipient token c).getD (c.Limit - 1).toNat ⟨"", 0⟩).Timestamp,
              c.Limit⟩)
      else
        .ok (likersFetch db recipient token c, "") := by
  unfold GetLikers
  rw [hc]

theorem getNewLikers_eq (db : List Decision) (recipient token : String) (c : Cursor)
    (hc : effectiveCursorE token = .ok c) :
    GetNewLikers db recipient token =
      if c.Limit < ((newLikersFetch db recipient token c).length : Int) then
        .ok ((newLikersFetch db recipient token c).take c.Limit.toNat,
          Cursor.Encode
            ⟨((newLikersFetch db recipient token c).getD (c.Limit - 1).toNat ⟨"", 0⟩).Timestamp,
              c.Limit⟩)
      else
        .ok (newLikersFetch db recipient token c, "") := by
  unfold GetNewLikers
  rw [hc]

/-! ## Claims -/

/-- **C7.** Cursor round-trip: for every cursor value `(LastCreatedAt, Limit)`,
decoding the string produced by `Encode` yields a cursor equal to the
original, with no error. -/
theorem cursor_roundtrip (c : Cursor) : DecodeCursor c.Encode = .ok (some c) :=
  decodeCursor_encode c

/-- **C8.** Cursor decode error semantics: `DecodeCursor ""` yields no cursor
and no error; a nonempty token failing the base64 layer or the structural
JSON layer yields an explicit error; an encoded cursor with `Limit ≤ 0` is
accepted by decode, and `GetLikers` / `GetNewLikers` normalize the cursor to
the default limit 20 instead of rejecting the request (both calls succeed). -/
theorem cursor_decode_error_semantics :
    DecodeCursor "" = .ok none ∧
    (∀ s : String, s ≠ "" → b64DecodeChars s.toList = none →
      ∃ e, DecodeCursor s = .error e) ∧
    (∀ (s : String) (bs : List Nat), s ≠ "" → b64DecodeChars s.toList = some bs →
      jsonUnmarshalCursor (bytesToChars bs) = none → ∃ e, DecodeCursor s = .error e) ∧
    (∀ c : Cursor, c.Limit ≤ 0 →
      DecodeCursor c.Encode = .ok (some c) ∧
      effectiveCursorE c.Encode = .ok ⟨0, 20⟩ ∧
      (∀ db recipient, ∃ page next, GetLikers db recipient c.Encode = .ok (page, next)) ∧
      (∀ db recipient, ∃ page next, GetNewLikers db recipient c.Encode = .ok (page, next))) := by
  refine ⟨rfl, ?_, ?_, ?_⟩
  · intro s hs hb
    unfold DecodeCursor
    rw [if_neg hs, hb]
    exact ⟨_, rfl⟩
  · intro s bs hs hb hj
    unfold DecodeCursor
    rw [if_neg hs, hb]
    simp only [hj]
    exact ⟨_, rfl⟩
  · intro c hlim
    have hc := effectiveCursor_encode_degenerate c hlim
    refine ⟨decodeCursor_encode c, hc, ?_, ?_⟩
    · intro db recipient
      rw [getLikers_eq db recipient c.Encode ⟨0, 20⟩ hc]
      by_cases hP : (20 : Int) < ((likersFetch db recipient c.Encode ⟨0, 20⟩).length : Int)
      · rw [if_pos hP]
        exact ⟨_, _, rfl⟩
      · rw [if_neg hP]
        exact ⟨_, _, rfl⟩
    · intro db recipient
      rw [getNewLikers_eq db recipient c.Encode ⟨0, 20⟩ hc]
      by_cases hP : (20 : Int) < ((newLikersFetch db recipient c.Encode ⟨0, 20⟩).length : Int)
      · rw [if_pos hP]
        exact ⟨_, _, rfl⟩
      · rw [if_neg hP]
        exact ⟨_, _, rfl⟩

/-- Witness for C8: concrete inputs for each hypothesis-bearing part. -/
theorem cursor_decode_error_semantics_witness :
    DecodeCursor "" = .ok none ∧
    (∃ e, DecodeCursor "invalid_token" = .error e) ∧
    DecodeCursor (Cursor.Encode ⟨5, 0⟩) = .ok (some ⟨5, 0⟩) ∧
    effectiveCursorE (Cursor.Encode ⟨5, 0⟩) = .ok ⟨0, 20⟩ :=
  have main := cursor_decode_error_semantics
  ⟨main.1,
   main.2.1 "invalid_token" (by decide) (by rfl),
   (main.2.2.2 ⟨5, 0⟩ (by decide)).1,
   (main.2.2.2 ⟨5, 0⟩ (by decide)).2.1⟩

/-- **C9.** Implicit claim: `GetNewLikers` never returns a non-empty next
pagination token — its query is capped at exactly `limit` rows, so the
minting condition `returned count > limit` is unsatisfiable. -/
theorem getNewLikers_next_token_always_empty (db : List Decision)
    (recipient token : String) (page : List Liker) (next : String)
    (h : GetNewLikers db recipient token = .ok (page, next)) : next = "" := by
  cases hc : effectiveCursorE token with
  | error e =>
    unfold GetNewLikers at h
    rw [hc] at h
    simp at h
  | ok c =>
    have hpos := effectiveCursor_pos token c hc
    rw [getNewLikers_eq db recipient token c hc] at h
    have hlen : (newLikersFetch db recipient token c).length ≤ c.Limit.toNat := by
      unfold newLikersFetch
      rw [queryRows_length]
      omega
    rw [if_neg (by omega)] at h
    simp only [Except.ok.injEq, Prod.mk.injEq] at h
    exact h.2.symm

/-- Witness for C9: a concrete run of `GetNewLikers` whose next token the
theorem forces to be empty. -/
theorem getNewLikers_next_token_always_empty_witness :
    GetNewLikers [⟨"A", "X", true, 100⟩] "X" "" = .ok ([⟨"A", 100⟩], "") ∧
    ("" : String) = "" :=
  have h : GetNewLikers [⟨"A", "X", true, 100⟩] "X" "" = .ok ([⟨"A", 100⟩], "") := by rfl
  ⟨h, getNewLikers_next_token_always_empty [⟨"A", "X", true, 100⟩] "X" "" [⟨"A", 100⟩] "" h⟩

/-- The failing input for C3: `A` liked `X`; the recipient `X` has recorded
no decision toward `A`; a third user `C` has a decision toward `A`. -/
def c3Db : List Decision := [⟨"A", "X", true, 100⟩, ⟨"C", "A", true, 50⟩]

/-- **C3** (evaluation at the failing input).  The claim — and the function's
own documentation — require `A` to be returned: `A` liked `X` and `X` never
recorded any decision toward `A`.  The code's anti-join condition
(`d1.actor_user_id = d2.recipient_user_id`, with no constraint on
`d2.actor_user_id`) instead excludes `A` because the unrelated row `C → A`
exists, so the page comes back empty. -/
theorem getNewLikers_antijoin_failing_input :
    (c3Db.any fun d =>
      d.actorUserId == "A" && d.recipientUserId == "X" && d.likedRecipient) = true ∧
    (c3Db.all fun d =>
      !(d.actorUserId == "X" && d.recipientUserId == "A")) = true ∧
    GetNewLikers c3Db "X" "" = .ok ([], "") := by
  refine ⟨by decide, by decide, ?_⟩
  rfl

/-- **C10.** Implicit claim: a nonempty token decoding to a cursor with
`Limit ≤ 0` makes both queries replace the whole cursor by the default
(`LastCreatedAt` becomes 0) while still applying the strictly-older-than
filter, so over a database whose rows all have non-negative epoch timestamps
the returned page is empty (with an empty next token). -/
theorem degenerate_cursor_empty_page (db : List Decision) (recipient token : String)
    (c : Cursor) (htok : token ≠ "") (hdec : DecodeCursor token = .ok (some c))
    (hlim : c.Limit ≤ 0) (hts : ∀ d ∈ db, 0 ≤ d.createdAt) :
    GetLikers db recipient token = .ok ([], "") ∧
    GetNewLikers db recipient token = .ok ([], "") := by
  have hc : effectiveCursorE token = .ok ⟨0, 20⟩ := by
    unfold effectiveCursorE
    rw [hdec]
    simp [hlim]
  have happ : (token != "") = true := by simp [htok]
  have hwin : ∀ d ∈ db, (decide (d.createdAt < (0 : Int))) = false := by
    intro d hd
    have h0 := hts d hd
    simp only [decide_eq_false_iff_not]
    omega
  have hfld : ∀ d ∈ db, likedRowFilter recipient (token != "") 0 d = false := by
    intro d hd
    unfold likedRowFilter
    rw [happ, hwin d hd]
    simp
  have hfldN : ∀ d ∈ db, newLikerRowFilter db recipient (token != "") 0 d = false := by
    intro d hd
    unfold newLikerRowFilter
    rw [happ, hwin d hd]
    simp
  have hfilter : db.filter (likedRowFilter recipient (token != "") 0) = [] :=
    List.filter_eq_nil_iff.mpr (fun d hd => by simp [hfld d hd])
  have hfilterN : db.filter (newLikerRowFilter db recipient (token != "") 0) = [] :=
    List.filter_eq_nil_iff.mpr (fun d hd => by simp [hfldN d hd])
  have hfetch : likersFetch db recipient token ⟨0, 20⟩ = [] := by
    unfold likersFetch queryRows
    rw [hfilter]
    rfl
  have hfetchN : newLikersFetch db recipient token ⟨0, 20⟩ = [] := by
    unfold newLikersFetch queryRows
    rw [hfilterN]
    rfl
  constructor
  · rw [getLikers_eq db recipient token ⟨0, 20⟩ hc, hfetch]
    norm_num
  · rw [getNewLikers_eq db recipient token ⟨0, 20⟩ hc, hfetchN]
    norm_num

/-- Witness for C10: a concrete degenerate token over a one-row database. -/
theorem degenerate_cursor_empty_page_witness :
    Cursor.Encode ⟨5, 0⟩ ≠ "" ∧
    DecodeCursor (Cursor.Encode ⟨5, 0⟩) = .ok (some ⟨5, 0⟩) ∧
    GetLikers [⟨"A", "X", true, 100⟩] "X" (Cursor.Encode ⟨5, 0⟩) = .ok ([], "") ∧
    GetNewLikers [⟨"A", "X", true, 100⟩] "X" (Cursor.Encode ⟨5, 0⟩) = .ok ([], "") :=
  have h := degenerate_cursor_empty_page [⟨"A", "X", true, 100⟩] "X" (Cursor.Encode ⟨5, 0⟩)
    ⟨5, 0⟩ (encode_ne_empty _) (decodeCursor_encode _) (by decide) (by decide)
  ⟨encode_ne_empty _, decodeCursor_encode _, h.1, h.2⟩

/-- **C1.** Pagination exactness of `GetLikers`: over any database, with the
effective cursor `c` (decoded and normalized from the token), let `N` be the
number of rows satisfying the filter and `L = c.Limit` the effective limit.
A successful call returns a page sorted by `created_at` descending, drawn
from the filtered rows; if `L < N` the page has exactly `L` likers and a
non-empty next token decoding to the `L`-th returned liker's timestamp; if
`N ≤ L` the page is a permutation of all `N` filtered rows and the next
token is empty. -/
theorem getLikers_pagination_exactness (db : List Decision) (recipient token : String)
    (c : Cursor) (page : List Liker) (next : String)
    (hc : effectiveCursorE token = .ok c)
    (h : GetLikers db recipient token = .ok (page, next)) :
    List.Sorted likerDesc page ∧
    (∀ x ∈ page,
      x ∈ (db.filter (likedRowFilter recipient (token != "") c.LastCreatedAt)).map projLiker) ∧
    (c.Limit.toNat <
        (db.filter (likedRowFilter recipient (token != "") c.LastCreatedAt)).length →
      page.length = c.Limit.toNat ∧ next ≠ "" ∧
      ∃ lastLiker, page.getLast? = some lastLiker ∧
        DecodeCursor next = .ok (some ⟨lastLiker.Timestamp, c.Limit⟩)) ∧
    ((db.filter (likedRowFilter recipient (token != "") c.LastCreatedAt)).length ≤
        c.Limit.toNat →
      next = "" ∧
      page.Perm
        ((db.filter (likedRowFilter recipient (token != "") c.LastCreatedAt)).map projLiker)) := by
  have hpos := effectiveCursor_pos token c hc
  rw [getLikers_eq db recipient token c hc] at h
  have hlen : (likersFetch db recipient token c).length =
      min (c.Limit.toNat + 1)
        (db.filter (likedRowFilter recipient (token != "") c.LastCreatedAt)).length := by
    unfold likersFetch
    rw [queryRows_length]
    congr 1
    omega
  by_cases hbr : c.Limit < ((likersFetch db recipient token c).length : Int)
  · rw [if_pos hbr] at h
    simp only [Except.ok.injEq, Prod.mk.injEq] at h
    obtain ⟨hpage, hnext⟩ := h
    subst hpage hnext
    have hNgt : c.Limit.toNat <
        (db.filter (likedRowFilter recipient (token != "") c.LastCreatedAt)).length := by
      omega
    have hflen : (likersFetch db recipient token c).length = c.Limit.toNat + 1 := by
      omega
    refine ⟨?_, ?_, ?_, ?_⟩
    · exact List.Pairwise.sublist (List.take_sublist _ _) (queryRows_sorted _ _ _)
    · intro x hx
      exact queryRows_mem _ _ _ x ((List.take_sublist _ _).subset hx)
    · intro _
      refine ⟨by rw [List.length_take]; omega, encode_ne_empty _, ?_⟩
      refine ⟨_, getLast?_take_of_length _ _ (by omega) (by omega), ?_⟩
      rw [show (c.Limit - 1).toNat = c.Limit.toNat - 1 from by omega]
      exact decodeCursor_encode _
    · intro hle
      exact absurd hle (by omega)
  · rw [if_neg hbr] at h
    simp only [Except.ok.injEq, Prod.mk.injEq] at h
    obtain ⟨hpage, hnext⟩ := h
    subst hpage hnext
    refine ⟨queryRows_sorted _ _ _, queryRows_mem _ _ _, ?_, ?_⟩
    · intro hgt
      exact absurd hgt (by omega)
    · intro hle
      exact ⟨rfl, queryRows_perm_of_le _ _ _ (by omega)⟩

/-- Witness for C1: one liker, empty token (effective cursor `{0, 20}`),
exercising the `N ≤ L` branch. -/
theorem getLikers_pagination_exactness_witness :
    GetLikers [⟨"A", "X", true, 100⟩] "X" "" = .ok ([⟨"A", 100⟩], "") ∧
    List.Sorted likerDesc [(⟨"A", 100⟩ : Liker)] ∧
    ("" : String) = "" ∧
    List.Perm [(⟨"A", 100⟩ : Liker)]
      ((List.filter (likedRowFilter "X" (("" : String) != "") 0)
        [⟨"A", "X", true, 100⟩]).map projLiker) :=
  have h : GetLikers [⟨"A", "X", true, 100⟩] "X" "" = .ok ([⟨"A", 100⟩], "") := by rfl
  have main := getLikers_pagination_exactness [⟨"A", "X", true, 100⟩] "X" "" ⟨0, 20⟩
    [⟨"A", 100⟩] "" rfl h
  ⟨h, main.1, (main.2.2.2 (by decide)).1, (main.2.2.2 (by decide)).2⟩

/-- The database for the C2 counterexample: three likers of `"X"` at
timestamps 300, 200, 100. -/
def c2Db : List Decision :=
  [⟨"A", "X", true, 300⟩, ⟨"B", "X", true, 200⟩, ⟨"C", "X", true, 100⟩]

/-- **C2** (counterexample to the claim as stated).  With cursor
`{last_created_at: 400, limit: 2}` the over-fetch returns the full
`limit + 1 = 3` rows; the dropped (last fetched) row is `C@100`, yet the
minted continuation cursor decodes to `last_created_at = 200` — the last
*returned* row's timestamp — not the dropped row's `100`. -/
theorem getLikers_next_cursor_counterexample :
    GetLikers c2Db "X" (Cursor.Encode ⟨400, 2⟩) =
      .ok ([⟨"A", 300⟩, ⟨"B", 200⟩], Cursor.Encode ⟨200, 2⟩) ∧
    likersFetch c2Db "X" (Cursor.Encode ⟨400, 2⟩) ⟨400, 2⟩ =
      [⟨"A", 300⟩, ⟨"B", 200⟩, ⟨"C", 100⟩] ∧
    (likersFetch c2Db "X" (Cursor.Encode ⟨400, 2⟩) ⟨400, 2⟩).getLast? = some ⟨"C", 100⟩ ∧
    DecodeCursor (Cursor.Encode ⟨200, 2⟩) = .ok (some ⟨200, 2⟩) ∧
    ((200 : Int) ≠ (100 : Int)) := by
  have hc := effectiveCursor_encode ⟨400, 2⟩ (by decide)
  have hfetch : likersFetch c2Db "X" (Cursor.Encode ⟨400, 2⟩) ⟨400, 2⟩ =
      [⟨"A", 300⟩, ⟨"B", 200⟩, ⟨"C", 100⟩] := by
    unfold likersFetch
    rw [encode_bne_empty]
    rfl
  refine ⟨?_, hfetch, by rw [hfetch]; rfl, decodeCursor_encode _, by decide⟩
  rw [getLikers_eq c2Db "X" (Cursor.Encode ⟨400, 2⟩) ⟨400, 2⟩ hc, hfetch,
    if_pos (by decide)]
  rfl

/-- **C2** (amended).  Whenever the `limit + 1` over-fetch returns a full
`limit + 1` rows, the last fetched row is dropped from the returned page
(`page = fetch.dropLast`), and the `created_at` of the last **returned** row
(the `limit`-th fetched row) — not the dropped row — becomes the
`last_created_at` of the newly encoded continuation cursor. -/
theorem getLikers_next_cursor_amended (db : List Decision) (recipient token : String)
    (c : Cursor) (page : List Liker) (next : String)
    (hc : effectiveCursorE token = .ok c)
    (hfull : (likersFetch db recipient token c).length = c.Limit.toNat + 1)
    (h : GetLikers db recipient token = .ok (page, next)) :
    page = (likersFetch db recipient token c).dropLast ∧
    ∃ lastLiker, page.getLast? = some lastLiker ∧
      next = Cursor.Encode ⟨lastLiker.Timestamp, c.Limit⟩ ∧
      DecodeCursor next = .ok (some ⟨lastLiker.Timestamp, c.Limit⟩) := by
  have hpos := effectiveCursor_pos token c hc
  rw [getLikers_eq db recipient token c hc, if_pos (by omega)] at h
  simp only [Except.ok.injEq, Prod.mk.injEq] at h
  obtain ⟨hpage, hnext⟩ := h
  subst hpage hnext
  constructor
  · rw [List.dropLast_eq_take, hfull]
    simp
  · refine ⟨_, getLast?_take_of_length _ _ (by omega) (by omega), ?_, ?_⟩
    · rw [show (c.Limit - 1).toNat = c.Limit.toNat - 1 from by omega]
    · rw [show (c.Limit - 1).toNat = c.Limit.toNat - 1 from by omega]
      exact decodeCursor_encode _

/-- Witness for the amended C2 at the concrete counterexample input. -/
theorem getLikers_next_cursor_amended_witness :
    (likersFetch c2Db "X" (Cursor.Encode ⟨400, 2⟩) ⟨400, 2⟩).length =
      ((⟨400, 2⟩ : Cursor).Limit).toNat + 1 ∧
    ([(⟨"A", 300⟩ : Liker), ⟨"B", 200⟩] =
        (likersFetch c2Db "X" (Cursor.Encode ⟨400, 2⟩) ⟨400, 2⟩).dropLast ∧
      ∃ lastLiker,
        ([(⟨"A", 300⟩ : Liker), ⟨"B", 200⟩] : List Liker).getLast? = some lastLiker ∧
        Cursor.Encode ⟨200, 2⟩ = Cursor.Encode ⟨lastLiker.Timestamp, (⟨400, 2⟩ : Cursor).Limit⟩ ∧
        DecodeCursor (Cursor.Encode ⟨200, 2⟩) =
          .ok (some ⟨lastLiker.Timestamp, (⟨400, 2⟩ : Cursor).Limit⟩)) :=
  have hfetch : likersFetch c2Db "X" (Cursor.Encode ⟨400, 2⟩) ⟨400, 2⟩ =
      [⟨"A", 300⟩, ⟨"B", 200⟩, ⟨"C", 100⟩] := by
    unfold likersFetch
    rw [encode_bne_empty]
    rfl
  have hfull : (likersFetch c2Db "X" (Cursor.Encode ⟨400, 2⟩) ⟨400, 2⟩).length =
      ((⟨400, 2⟩ : Cursor).Limit).toNat + 1 := by rw [hfetch]; rfl
  have hrun : GetLikers c2Db "X" (Cursor.Encode ⟨400, 2⟩) =
      .ok ([⟨"A", 300⟩, ⟨"B", 200⟩], Cursor.Encode ⟨200, 2⟩) := by
    rw [getLikers_eq c2Db "X" (Cursor.Encode ⟨400, 2⟩) ⟨400, 2⟩
      (effectiveCursor_encode ⟨400, 2⟩ (by decide)), hfetch, if_pos (by decide)]
    rfl
  ⟨hfull, getLikers_next_cursor_amended c2Db "X" (Cursor.Encode ⟨400, 2⟩) ⟨400, 2⟩
    [⟨"A", 300⟩, ⟨"B", 200⟩] (Cursor.Encode ⟨200, 2⟩)
    (effectiveCursor_encode ⟨400, 2⟩ (by decide)) hfull hrun⟩

/-- **C4.** Next-page detection of `GetNewLikers`: the query's `LIMIT` is
exactly the effective limit (not `limit + 1`), so the returned page is the
full fetched row list (capped at `min limit N`, nothing dropped), and a next
pagination token is produced precisely when the returned row count strictly
exceeds the effective limit. -/
theorem getNewLikers_next_page_detection (db : List Decision) (recipient token : String)
    (c : Cursor) (page : List Liker) (next : String)
    (hc : effectiveCursorE token = .ok c)
    (h : GetNewLikers db recipient token = .ok (page, next)) :
    page = newLikersFetch db recipient token c ∧
    (newLikersFetch db recipient token c).length =
      min c.Limit.toNat
        (db.filter (newLikerRowFilter db recipient (token != "") c.LastCreatedAt)).length ∧
    (next ≠ "" ↔ c.Limit < (page.length : Int)) := by
  have hpos := effectiveCursor_pos token c hc
  have hlen : (newLikersFetch db recipient token c).length =
      min c.Limit.toNat
        (db.filter (newLikerRowFilter db recipient (token != "") c.LastCreatedAt)).length := by
    unfold newLikersFetch
    rw [queryRows_length]
  rw [getNewLikers_eq db recipient token c hc, if_neg (by omega)] at h
  simp only [Except.ok.injEq, Prod.mk.injEq] at h
  obtain ⟨hpage, hnext⟩ := h
  subst hpage hnext
  refine ⟨rfl, hlen, ?_⟩
  constructor
  · intro hne
    exact absurd rfl hne
  · intro hgt
    exact absurd hgt (by omega)

/-- Witness for C4: one new liker, empty token. -/
theorem getNewLikers_next_page_detection_witness :
    GetNewLikers [⟨"A", "X", true, 100⟩] "X" "" = .ok ([⟨"A", 100⟩], "") ∧
    ([(⟨"A", 100⟩ : Liker)] = newLikersFetch [⟨"A", "X", true, 100⟩] "X" "" ⟨0, 20⟩ ∧
      (newLikersFetch [⟨"A", "X", true, 100⟩] "X" "" ⟨0, 20⟩).length =
        min ((⟨0, 20⟩ : Cursor).Limit).toNat
          (([⟨"A", "X", true, 100⟩] : List Decision).filter
            (newLikerRowFilter [⟨"A", "X", true, 100⟩] "X" (("" : String) != "")
              (⟨0, 20⟩ : Cursor).LastCreatedAt)).length ∧
      (("" : String) ≠ "" ↔
        (⟨0, 20⟩ : Cursor).Limit < (([(⟨"A", 100⟩ : Liker)].length : Int)))) :=
  have h : GetNewLikers [⟨"A", "X", true, 100⟩] "X" "" = .ok ([⟨"A", 100⟩], "") := by rfl
  ⟨h, getNewLikers_next_page_detection [⟨"A", "X", true, 100⟩] "X" "" ⟨0, 20⟩
    [⟨"A", 100⟩] "" rfl h⟩

/-- **C5.** Cache-aside orchestration for `ListLikers` / `ListNewLikers` /
`CountLikers`: a successful typed cache probe returns the cached payload
verbatim with zero storage calls; on a cache miss or cache error exactly one
storage call is made, and a cache error is never surfaced — if storage
succeeds the request succeeds. -/
theorem cache_aside_orchestration
    (probe : CacheProbe) (repoL repoN : Except String (List Liker × String))
    (raw : String) (cerr : Option String) (repoC : Except String Int) :
    ((probe.err = none ∧ probe.ok = true) →
      listLikersCore probe repoL = ⟨.ok probe.payload, 0⟩ ∧
      listNewLikersCore probe repoN = ⟨.ok probe.payload, 0⟩) ∧
    (¬(probe.err = none ∧ probe.ok = true) →
      (listLikersCore probe repoL).storageCalls = 1 ∧
      (listNewLikersCore probe repoN).storageCalls = 1 ∧
      (∀ likers nextToken, repoL = .ok (likers, nextToken) →
        (listLikersCore probe repoL).result = .ok (buildListResponse likers nextToken)) ∧
      (∀ likers nextToken, repoN = .ok (likers, nextToken) →
        (listNewLikersCore probe repoN).result = .ok (buildListResponse likers nextToken))) ∧
    ((cerr = none ∧ raw ≠ "") →
      ∀ n, parseUintDec raw = some n → countLikersCore raw cerr repoC = ⟨.ok n, 0⟩) ∧
    (¬(cerr = none ∧ raw ≠ "" ∧ (parseUintDec raw).isSome = true) →
      (countLikersCore raw cerr repoC).storageCalls = 1 ∧
      (∀ count, repoC = .ok count →
        (countLikersCore raw cerr repoC).result = .ok ((count % (2 ^ 64 : Int)).toNat))) := by
  refine ⟨?_, ?_, ?_, ?_⟩
  · intro hhit
    unfold listLikersCore listNewLikersCore
    rw [if_pos hhit, if_pos hhit]
    exact ⟨rfl, rfl⟩
  · intro hmiss
    unfold listLikersCore listNewLikersCore
    rw [if_neg hmiss, if_neg hmiss]
    refine ⟨?_, ?_, ?_, ?_⟩
    · cases repoL with
      | error e => rfl
      | ok p => cases p; rfl
    · cases repoN with
      | error e => rfl
      | ok p => cases p; rfl
    · intro likers nextToken hrepo
      subst hrepo
      rfl
    · intro likers nextToken hrepo
      subst hrepo
      rfl
  · intro hcond n hparse
    unfold countLikersCore
    rw [if_pos hcond]
    simp only [hparse]
  · intro hnot
    unfold countLikersCore
    by_cases hcond : cerr = none ∧ raw ≠ ""
    · rw [if_pos hcond]
      cases hp : parseUintDec raw with
      | some n => exact absurd ⟨hcond.1, hcond.2, by rw [hp]; rfl⟩ hnot
      | none =>
        simp only [hp]
        constructor
        · cases repoC with
          | error e => rfl
          | ok count => rfl
        · intro count hrc
          subst hrc
          rfl
    · rw [if_neg hcond]
      constructor
      · cases repoC with
        | error e => rfl
        | ok count => rfl
      · intro count hrc
        subst hrc
        rfl

/-- Witness for C5: a concrete cache hit (zero storage calls) and a concrete
miss falling through to storage. -/
theorem cache_aside_orchestration_witness :
    listLikersCore ⟨true, none, ⟨[], none⟩⟩ (.ok ([], "")) = ⟨.ok ⟨[], none⟩, 0⟩ ∧
    listNewLikersCore ⟨true, none, ⟨[], none⟩⟩ (.ok ([], "")) = ⟨.ok ⟨[], none⟩, 0⟩ ∧
    (listLikersCore ⟨false, some "redis down", ⟨[], none⟩⟩
      (.ok ([⟨"A", 100⟩], ""))).storageCalls = 1 ∧
    (listLikersCore ⟨false, some "redis down", ⟨[], none⟩⟩
      (.ok ([⟨"A", 100⟩], ""))).result = .ok (buildListResponse [⟨"A", 100⟩] "") ∧
    countLikersCore "42" none (.ok 7) = ⟨.ok 42, 0⟩ ∧
    (countLikersCore "" none (.ok 7)).result = .ok (((7 : Int) % (2 ^ 64 : Int)).toNat) :=
  have main1 := cache_aside_orchestration ⟨true, none, ⟨[], none⟩⟩ (.ok ([], ""))
    (.ok ([], "")) "42" none (.ok 7)
  have main2 := cache_aside_orchestration ⟨false, some "redis down", ⟨[], none⟩⟩
    (.ok ([⟨"A", 100⟩], "")) (.ok ([], "")) "" none (.ok 7)
  ⟨(main1.1 ⟨rfl, rfl⟩).1,
   (main1.1 ⟨rfl, rfl⟩).2,
   (main2.2.1 (by simp)).1,
   (main2.2.1 (by simp)).2.2.1 [⟨"A", 100⟩] "" rfl,
   main1.2.2.1 ⟨rfl, by decide⟩ 42 (by rfl),
   (main2.2.2.2 (by simp)).2 7 rfl⟩

/-- **C6.** `CreateDecision` mutual-like protocol: the mutual-like check runs
precisely when the upsert succeeded and the decision is a like; an upsert
failure fails the request with the check never attempted; and a successful
response reports `mutual_likes = true` exactly when the decision was a like
and the check returned `some true` (a `nil` result or a dislike yields
`false`). -/
theorem createDecision_mutual_like_protocol (liked : Bool) (upsertErr : Option String)
    (mutualRes : Except String (Option Bool)) :
    ((createDecisionCore liked upsertErr mutualRes).mutualChecked = true ↔
      upsertErr = none ∧ liked = true) ∧
    (∀ e, upsertErr = some e →
      createDecisionCore liked upsertErr mutualRes =
        ⟨.error (.internal "failed to create decision"), false⟩) ∧
    (∀ resp, (createDecisionCore liked upsertErr mutualRes).result = .ok resp →
      (resp.mutualLikes = true ↔ liked = true ∧ mutualRes = .ok (some true))) := by
  cases upsertErr with
  | some e =>
    have hval : createDecisionCore liked (some e) mutualRes =
        ⟨.error (.internal "failed to create decision"), false⟩ := rfl
    rw [hval]
    exact ⟨by simp, fun e' he => rfl, fun resp hresp => by simp at hresp⟩
  | none =>
    cases liked with
    | false =>
      have hval : createDecisionCore false none mutualRes = ⟨.ok ⟨false⟩, false⟩ := rfl
      rw [hval]
      refine ⟨by simp, fun e he => by simp at he, ?_⟩
      intro resp hresp
      simp only [Except.ok.injEq] at hresp
      subst hresp
      simp
    | true =>
      cases mutualRes with
      | error e =>
        have hval : createDecisionCore true none (.error e) =
            ⟨.error (.internal "failed to check mutual like"), true⟩ := rfl
        rw [hval]
        exact ⟨by simp, fun e' he => by simp at he, fun resp hresp => by simp at hresp⟩
      | ok r =>
        have hval : createDecisionCore true none (.ok r) =
            ⟨.ok ⟨match r with | some b => b | none => false⟩, true⟩ := rfl
        rw [hval]
        refine ⟨by simp, fun e' he => by simp at he, ?_⟩
        intro resp hresp
        simp only [Except.ok.injEq] at hresp
        subst hresp
        cases r with
        | none => simp
        | some b => cases b <;> simp

/-- Witness for C6: concrete runs of each protocol branch. -/
theorem createDecision_mutual_like_protocol_witness :
    ((createDecisionCore true none (.ok (some true))).mutualChecked = true ↔
      (none : Option String) = none ∧ true = true) ∧
    createDecisionCore true (some "db down") (.ok (some true)) =
      ⟨.error (.internal "failed to create decision"), false⟩ ∧
    ((⟨true⟩ : PutDecisionResponse).mutualLikes = true ↔
      true = true ∧ (.ok (some true) : Except String (Option Bool)) = .ok (some true)) :=
  have main1 := createDecision_mutual_like_protocol true none (.ok (some true))
  have main2 := createDecision_mutual_like_protocol true (some "db down") (.ok (some true))
  ⟨main1.1,
   main2.2.1 "db down" rfl,
   main1.2.2 ⟨true⟩ (by rfl)⟩
